import Mathlib

/-!
# Verification of the swaybar status-bar dispatch core

A shallow embedding, in Lean 4, of the status-bar program's concurrent
block-monitoring and update-dispatch loop (package main of the status-bar
source file): the Block data model and its JSON marshalling, the provider
registration table and the name-to-position lookup, `displayStatusBar` and
`updateSingleBlock`, the dispatch loop `mainLoop` (modelled as a step
function over delivered events plus a run function over event traces), the
stdin click-event reader, and `decodeClickEvent`.

Go-specific conventions used by the embedding:
- pointer-typed optional struct fields become `Option`;
- machine `int` becomes `Int` (no arithmetic near overflow occurs);
- a Go slice-index or string-index panic is modelled by returning `none`
  (or an explicit panic marker) from the embedded function;
- Go map indexing that misses returns the zero value of the value type;
- side effects of the loop (stdout lines, log lines, click-handler
  invocations, provider queries) are recorded as an explicit effect trace.
-/

namespace StatusBar

/-- A primitive JSON value as emitted by Go's `encoding/json` for the flat
status-bar structs: the marshaller for these structs only ever produces
string, integer and boolean field values; unset optional fields are omitted
from the object, never emitted as `null`. String escaping is not modelled:
the program's field values never contain characters that need escapes. -/
inductive JsonPrim where
  | s (v : String)
  | i (v : Int)
  | b (v : Bool)
deriving Repr, DecidableEq

/-- Rendering of a primitive JSON value as `encoding/json` prints it. -/
def JsonPrim.render : JsonPrim → String
  | .s v => ("\"") ++ v ++ ("\"")
  | .i v => toString v
  | .b v => if v then ("true") else ("false")

/-- The swaybar body block, translated field for field from the Go struct
`fullSwaybarMessageBodyBlock`. Pointer-typed fields become `Option`; the
Go zero value of the struct is the default value here. The JSON key of
`instance_` is `instance` (a Lean keyword, hence the underscore). -/
structure fullSwaybarMessageBodyBlock where
  full_text : String := ""
  short_text : String := ""
  color : String := ""
  background : String := ""
  border : String := ""
  border_top : Option Int := none
  border_bottom : Option Int := none
  border_left : Option Int := none
  border_right : Option Int := none
  min_width : Option Int := none
  align : String := ""
  name : String := ""
  instance_ : String := ""
  urgent : Option Bool := none
  separator : Option Bool := none
  separator_block_width : Option Int := none
  markup : String := ""
deriving Repr, DecidableEq

/-- The `omitempty` rule of `encoding/json` for a string-typed struct
field: the field is omitted exactly when its value is the empty string. -/
def omitemptyStr (key v : String) : List (String × JsonPrim) :=
  if v = "" then [] else [(key, JsonPrim.s v)]

/-- The `omitempty` rule of `encoding/json` for a pointer-typed struct
field: the field is omitted exactly when the pointer is nil (`none`); a
non-nil pointer to a zero value is still emitted. -/
def omitemptyOpt {α : Type} (key : String) (f : α → JsonPrim) (o : Option α) :
    List (String × JsonPrim) :=
  match o with
  | none => []
  | some v => [(key, f v)]

/-- `json.Marshal` of one `fullSwaybarMessageBodyBlock`, at the level of the
ordered field list of the produced JSON object. Field order is the struct's
declaration order; every field but `full_text` carries the `omitempty`
tag, and `full_text` is always present. -/
def fullSwaybarMessageBodyBlock.marshal (blk : fullSwaybarMessageBodyBlock) :
    List (String × JsonPrim) :=
  [(("full_text"), JsonPrim.s blk.full_text)]
  ++ omitemptyStr ("short_text") blk.short_text
  ++ omitemptyStr ("color") blk.color
  ++ omitemptyStr ("background") blk.background
  ++ omitemptyStr ("border") blk.border
  ++ omitemptyOpt ("border_top") JsonPrim.i blk.border_top
  ++ omitemptyOpt ("border_bottom") JsonPrim.i blk.border_bottom
  ++ omitemptyOpt ("border_left") JsonPrim.i blk.border_left
  ++ omitemptyOpt ("border_right") JsonPrim.i blk.border_right
  ++ omitemptyOpt ("min_width") JsonPrim.i blk.min_width
  ++ omitemptyStr ("align") blk.align
  ++ omitemptyStr ("name") blk.name
  ++ omitemptyStr ("instance") blk.instance_
  ++ omitemptyOpt ("urgent") JsonPrim.b blk.urgent
  ++ omitemptyOpt ("separator") JsonPrim.b blk.separator
  ++ omitemptyOpt ("separator_block_width") JsonPrim.i blk.separator_block_width
  ++ omitemptyStr ("markup") blk.markup

/-- Text rendering of one marshalled JSON object. -/
def renderObj (fields : List (String × JsonPrim)) : String :=
  ("\x7b") ++
    String.intercalate (",") (fields.map fun f => ("\"") ++ f.1 ++ ("\":") ++ f.2.render)
  ++ ("\x7d")

/-- `json.Marshal(fullBlockValues)`: the serialized form of the whole
rendered-state array, as the single string the loop prints per update. -/
def renderBlockArray (blocks : List fullSwaybarMessageBodyBlock) : String :=
  ("[") ++ String.intercalate (",") (blocks.map fun b => renderObj b.marshal) ++ ("]")

/-- The click event struct, translated field for field from the Go struct
`clickEvent`. The JSON key of `instance_` is `instance`. -/
structure clickEvent where
  name : String := ""
  instance_ : String := ""
  x : Int := 0
  y : Int := 0
  button : Int := 0
  event : Int := 0
  relative_x : Int := 0
  relative_y : Int := 0
  width : Int := 0
  height : Int := 0
deriving Repr, DecidableEq

/-- The instantaneous view of a `blockProvider` interface value as the
dispatch loop observes it at the moment an event is delivered: the Block
that its `createBlock()` returns right now, and its `name()`. Provider
state evolves concurrently outside the loop, so each delivered event in a
trace carries the provider snapshots current at its delivery time. -/
structure blockProvider where
  createBlock : fullSwaybarMessageBodyBlock
  name : String
deriving Repr, DecidableEq

/-- One observable side effect of the dispatch loop: a stdout line, a line
written to the log sink, the invocation of a provider's `respondToClick`,
or a query of a provider's `createBlock` (recorded by `updateSingleBlock`
so that re-query locality is provable). -/
inductive Effect where
  | output (line : String)
  | logLine (msg : String)
  | clickInvoked (index : Nat)
  | queried (index : Nat)
deriving Repr, DecidableEq

/-- The stdout lines among a list of effects, in order. -/
def outputsOf (effs : List Effect) : List String :=
  effs.filterMap fun e =>
    match e with
    | .output s => some s
    | _ => none

/-- The provider queries among a list of effects, in order. -/
def queriesOf (effs : List Effect) : List Nat :=
  effs.filterMap fun e =>
    match e with
    | .queried i => some i
    | _ => none

/-- `updateSingleBlock`: query the provider's current Block, force its
`Name` from the provider's `name()`, and overwrite slot `index` of the
rendered-state array. The Go slice store `fullBlockValues[index] = ...`
panics when `index` is out of range; that panic is the `none` result. -/
def updateSingleBlock (fullBlockValues : List fullSwaybarMessageBodyBlock) (index : Nat)
    (provider : blockProvider) :
    Option (List fullSwaybarMessageBodyBlock × List Effect) :=
  if index < fullBlockValues.length then
    let fullBlock := provider.createBlock
    let fullBlock := { fullBlock with name := provider.name }
    some (fullBlockValues.set index fullBlock, [Effect.queried index])
  else
    none

/-- The indexed loop body of `updateFullBlockValues`, starting at slot `i`:
each registered provider in turn is queried and its slot overwritten. -/
def updateFullBlockValuesAux (fullBlockValues : List fullSwaybarMessageBodyBlock)
    (blockProviders : List blockProvider) (i : Nat) :
    Option (List fullSwaybarMessageBodyBlock × List Effect) :=
  match blockProviders with
  | [] => some (fullBlockValues, [])
  | p :: rest =>
    match updateSingleBlock fullBlockValues i p with
    | none => none
    | some (vals2, effs) =>
      match updateFullBlockValuesAux vals2 rest (i + 1) with
      | none => none
      | some (vals3, effs2) => some (vals3, effs ++ effs2)

/-- `updateFullBlockValues`: full refresh, querying every provider. -/
def updateFullBlockValues (fullBlockValues : List fullSwaybarMessageBodyBlock)
    (blockProviders : List blockProvider) :
    Option (List fullSwaybarMessageBodyBlock × List Effect) :=
  updateFullBlockValuesAux fullBlockValues blockProviders 0

/-- `displayStatusBar`: a negative `indexToUpdate` refreshes every slot, a
non-negative one refreshes exactly that slot (the Go index expression
`blockProviders[indexToUpdate]` panics when out of range, modelled by
`none`); then the whole rendered-state array is marshalled and printed as
one line. `fmt.Println(str, ",")` separates its arguments with one space,
so the emitted line is the serialized array, a space, and a comma. -/
def displayStatusBar (fullBlockValues : List fullSwaybarMessageBodyBlock)
    (blockProviders : List blockProvider) (indexToUpdate : Int) :
    Option (List fullSwaybarMessageBodyBlock × List Effect) :=
  let updated :=
    if indexToUpdate < 0 then
      match updateFullBlockValues fullBlockValues blockProviders with
      | none => none
      | some (vals, effs) =>
        some (vals, Effect.logLine ("Updating all blocks") :: effs)
    else
      match blockProviders[indexToUpdate.toNat]? with
      | none => none
      | some p =>
        match updateSingleBlock fullBlockValues indexToUpdate.toNat p with
        | none => none
        | some (vals, effs) =>
          some (vals, Effect.logLine (("Updating block ") ++ toString indexToUpdate) :: effs)
  match updated with
  | none => none
  | some (vals, effs) =>
    let str := renderBlockArray vals
    some (vals, effs ++ [Effect.logLine (("Data ") ++ str), Effect.output (str ++ (" ,"))])

/-- The two process-control signals the dispatch loop subscribes to. -/
inductive ProcSignal where
  | SIGCONT
  | SIGSTOP
deriving Repr, DecidableEq

/-- One event delivered to the dispatch loop's three-source select: a click
event from the stdin channel, the closing of the stdin channel, a
process-control signal, or a change notification carrying the changed
provider's index (an `int` in the source). -/
inductive LoopEvent where
  | click (ev : clickEvent)
  | stdinClosed
  | sig (s : ProcSignal)
  | changed (index : Int)
deriving Repr, DecidableEq

/-- Insertion into a Go `map[string]int`, modelled as an association list:
an existing key is overwritten, a new key is appended. -/
def goMapInsert (m : List (String × Nat)) (k : String) (v : Nat) : List (String × Nat) :=
  match m with
  | [] => [(k, v)]
  | (k2, v2) :: rest =>
    if k2 = k then (k, v) :: rest else (k2, v2) :: goMapInsert rest k v

/-- Go map indexing `m[k]` without the comma-ok form: a key that is absent
yields the zero value of the value type, here `0`. -/
def goMapLookup (m : List (String × Nat)) (k : String) : Nat :=
  match m.find? (fun e => e.1 = k) with
  | some e => e.2
  | none => 0

/-- The `providersByName` table built at the top of `mainLoop`: every
provider with a non-empty `name()` is inserted with its position; providers
with an empty name are skipped. -/
def makeProvidersByName (blockProviders : List blockProvider) : List (String × Nat) :=
  (blockProviders.enum.foldl
    (fun m pi => if pi.2.name = "" then m else goMapInsert m pi.2.name pi.1) [])

/-- The dispatch loop's own mutable state: the rendered-state array, and
whether the stdin channel is still the live one (once it closes the loop
swaps in `stdinNeverWriteToMe`, after which that select branch never fires
again). -/
structure LoopState where
  fullBlockValues : List fullSwaybarMessageBodyBlock
  stdinOpen : Bool
deriving Repr, DecidableEq

/-- Result of handling one delivered event: continue with a new state,
return from the loop, or panic. Each carries the effects of the step. -/
inductive StepResult where
  | cont (st : LoopState) (effs : List Effect)
  | returned (effs : List Effect)
  | panicked (effs : List Effect)
deriving Repr, DecidableEq

/-- One iteration of `mainLoop`'s select, given the name lookup built at
loop entry, the provider snapshots current at delivery time, the loop
state, and the delivered event.

- A click event looks its name up in `providersByName` with Go's zero-value
  semantics for missing keys and invokes `respondToClick` of the provider
  at the resulting index (a Go slice index, panicking when out of range).
- Closure of the stdin channel swaps in the never-firing channel; a click
  or closure event can only be delivered while the stdin branch is live, so
  with `stdinOpen = false` those events do not occur and are no-ops.
- `SIGCONT` only writes a log line; `SIGSTOP` writes one and returns.
- A change notification runs `displayStatusBar` on the named index. -/
def mainLoopStep (providersByName : List (String × Nat))
    (blockProviders : List blockProvider) (st : LoopState) (e : LoopEvent) : StepResult :=
  match e with
  | .click ev =>
    if st.stdinOpen then
      let providerIndex := goMapLookup providersByName ev.name
      if providerIndex < blockProviders.length then
        .cont st [Effect.clickInvoked providerIndex]
      else
        .panicked []
    else
      .cont st []
  | .stdinClosed =>
    if st.stdinOpen then
      .cont { st with stdinOpen := false } []
    else
      .cont st []
  | .sig s =>
    match s with
    | .SIGCONT => .cont st [Effect.logLine ("SIGCONT")]
    | .SIGSTOP => .returned [Effect.logLine ("SIGSTOP")]
  | .changed index =>
    match displayStatusBar st.fullBlockValues blockProviders index with
    | none => .panicked []
    | some (vals, effs) => .cont { st with fullBlockValues := vals } effs

/-- Outcome of running the loop over a finite trace of delivered events. -/
inductive RunResult where
  | running (st : LoopState)
  | returned
  | panicked
deriving Repr, DecidableEq

/-- `mainLoop`'s steady-state `for`: process delivered events in order.
Each trace entry carries the provider snapshots current at its delivery.
After the loop returns (or panics) no further event is processed and no
further effect is produced. -/
def mainLoopRun (providersByName : List (String × Nat)) (st : LoopState) :
    List (List blockProvider × LoopEvent) → List Effect × RunResult
  | [] => ([], .running st)
  | (ps, e) :: rest =>
    match mainLoopStep providersByName ps st e with
    | .cont st2 effs =>
      let r := mainLoopRun providersByName st2 rest
      (effs ++ r.1, r.2)
    | .returned effs => (effs, .returned)
    | .panicked effs => (effs, .panicked)

/-- The distinguishable Go panics of the stdin path: the out-of-range
string index in `decodeClickEvent`, and `logger.Panic` on a JSON decode
error. -/
inductive GoPanic where
  | indexOutOfRange
  | jsonError
deriving Repr, DecidableEq

/-- A JSON value as needed to decode a click event line: the flat object
shape produced by swaybar. -/
inductive JVal where
  | s (v : String)
  | i (v : Int)
  | b (v : Bool)
deriving Repr, DecidableEq

/-- Skip JSON whitespace. -/
def skipWs (cs : List Char) : List Char :=
  cs.dropWhile fun c => c = ' ' || c = '\t' || c = '\n' || c = '\r'

/-- Body of a JSON string literal after the opening quote, up to the
closing quote. Escape sequences are not modelled (the protocol's field
values never contain them). -/
def parseStringBody : List Char → Option (String × List Char)
  | [] => none
  | c :: rest =>
    if c = '"' then some ("", rest)
    else if c = '\\' then none
    else
      match parseStringBody rest with
      | none => none
      | some (s, r) => some (String.singleton c ++ s, r)

/-- A JSON string literal. -/
def parseStringLit (cs : List Char) : Option (String × List Char) :=
  match cs with
  | '"' :: rest => parseStringBody rest
  | _ => none

/-- The numeric value of a digit run. -/
def digitsVal (ds : List Char) : Nat :=
  ds.foldl (fun acc c => acc * 10 + (c.toNat - ('0').toNat)) 0

/-- A JSON integer literal (optionally negative). -/
def parseIntLit (cs : List Char) : Option (Int × List Char) :=
  let core (cs2 : List Char) : Option (Nat × List Char) :=
    let ds := cs2.takeWhile Char.isDigit
    if ds.isEmpty then none else some (digitsVal ds, cs2.drop ds.length)
  match cs with
  | '-' :: rest =>
    match core rest with
    | none => none
    | some (n, r) => some (-(n : Int), r)
  | _ =>
    match core cs with
    | none => none
    | some (n, r) => some ((n : Int), r)

/-- A primitive JSON value: string, integer, `true` or `false`. -/
def parseValue (cs : List Char) : Option (JVal × List Char) :=
  match cs with
  | '"' :: _ =>
    match parseStringLit cs with
    | none => none
    | some (s, r) => some (JVal.s s, r)
  | 't' :: 'r' :: 'u' :: 'e' :: rest => some (JVal.b true, rest)
  | 'f' :: 'a' :: 'l' :: 's' :: 'e' :: rest => some (JVal.b false, rest)
  | _ =>
    match parseIntLit cs with
    | none => none
    | some (n, r) => some (JVal.i n, r)

/-- The members of a JSON object after the opening brace (non-empty case):
`"key": value` pairs separated by commas, ended by the closing brace. The
fuel argument bounds recursion by the input length. -/
def parseMembers : Nat → List Char → Option (List (String × JVal) × List Char)
  | 0, _ => none
  | fuel + 1, cs =>
    match parseStringLit (skipWs cs) with
    | none => none
    | some (k, cs1) =>
      match skipWs cs1 with
      | ':' :: cs2 =>
        match parseValue (skipWs cs2) with
        | none => none
        | some (v, cs3) =>
          match skipWs cs3 with
          | ',' :: cs4 =>
            match parseMembers fuel cs4 with
            | none => none
            | some (ms, r) => some ((k, v) :: ms, r)
          | '\x7d' :: cs4 => some ([(k, v)], cs4)
          | _ => none
      | _ => none

/-- A whole input that is one flat JSON object, with nothing but
whitespace after it. -/
def parseTopObject (s : String) : Option (List (String × JVal)) :=
  match skipWs s.data with
  | '\x7b' :: cs =>
    match skipWs cs with
    | '\x7d' :: cs2 => if (skipWs cs2).isEmpty then some [] else none
    | cs2 =>
      match parseMembers (cs2.length + 1) cs2 with
      | none => none
      | some (ms, rest) => if (skipWs rest).isEmpty then some ms else none
  | _ => none

/-- Application of one decoded JSON member to a `clickEvent` under Go's
`encoding/json` field rules for this struct: each tagged key requires the
matching primitive type (a mismatch is a decode error), unknown keys are
ignored, absent keys leave the zero value. -/
def applyClickField (ev : clickEvent) (kv : String × JVal) : Option clickEvent :=
  let k := kv.1
  let v := kv.2
  if k = "name" then
    match v with
    | .s s => some { ev with name := s }
    | _ => none
  else if k = "instance" then
    match v with
    | .s s => some { ev with instance_ := s }
    | _ => none
  else if k = "x" then
    match v with
    | .i n => some { ev with x := n }
    | _ => none
  else if k = "y" then
    match v with
    | .i n => some { ev with y := n }
    | _ => none
  else if k = "button" then
    match v with
    | .i n => some { ev with button := n }
    | _ => none
  else if k = "event" then
    match v with
    | .i n => some { ev with event := n }
    | _ => none
  else if k = "relative_x" then
    match v with
    | .i n => some { ev with relative_x := n }
    | _ => none
  else if k = "relative_y" then
    match v with
    | .i n => some { ev with relative_y := n }
    | _ => none
  else if k = "width" then
    match v with
    | .i n => some { ev with width := n }
    | _ => none
  else if k = "height" then
    match v with
    | .i n => some { ev with height := n }
    | _ => none
  else
    some ev

/-- Model of `json.Unmarshal` into a `clickEvent`, restricted to the flat
object shape this protocol uses: `none` is a decode error. -/
def jsonUnmarshalClickEvent (s : String) : Option clickEvent :=
  match parseTopObject s with
  | none => none
  | some ms => ms.foldlM applyClickField {}

/-- `decodeClickEvent`: reads the first byte of the input without a length
guard (an out-of-range panic for the empty string), strips a leading
comma, unmarshals the remainder, and panics on a decode error. -/
def decodeClickEvent (eventString : String) : Except GoPanic clickEvent :=
  match eventString.data with
  | [] => .error .indexOutOfRange
  | c :: rest =>
    let stripped := if c = ',' then String.mk rest else eventString
    match jsonUnmarshalClickEvent stripped with
    | none => .error .jsonError
    | some ev => .ok ev

/-- `strings.Trim(buffer, " \n")`: remove every leading and trailing
space or newline. -/
def trimGo (s : String) : String :=
  String.mk (((s.data.dropWhile fun c => c = ' ' || c = '\n').reverse.dropWhile
    fun c => c = ' ' || c = '\n').reverse)

/-- Final state of the stdin reader goroutine on a finite input. -/
inductive ReaderOutcome where
  | closed
  | panicked (p : GoPanic)
deriving Repr, DecidableEq

/-- The loop body of `setupStdinReader` over the whole-line reads that
`ReadString` delivers: end of input (a read error) closes the channel, a
line trimming to `[` is skipped, one trimming to `]` closes the channel
and stops, and every other line is decoded and forwarded. The result is
the sequence of events forwarded on the channel before the outcome. -/
def stdinReaderRun : List String → List clickEvent × ReaderOutcome
  | [] => ([], .closed)
  | line :: rest =>
    let trimmed := trimGo line
    if trimmed = "[" then stdinReaderRun rest
    else if trimmed = "]" then ([], .closed)
    else
      match decodeClickEvent trimmed with
      | .error p => ([], .panicked p)
      | .ok ev =>
        let r := stdinReaderRun rest
        (ev :: r.1, r.2)

/-- The `ipAddressProvider`: its one field caches the display text. -/
structure ipAddressProvider where
  text : String
deriving Repr, DecidableEq

/-- `strings.SplitN(s, sep, 2)`: the whole string when the separator does
not occur, otherwise the part before its first occurrence and the rest. -/
def goSplitN2 (s : String) (sep : Char) : List String :=
  match s.data.findIdx? (fun c => c = sep) with
  | none => [s]
  | some i => [String.mk (s.data.take i), String.mk (s.data.drop (i + 1))]

/-- `ipAddressProvider.createBlock`, with the result of running
`hostname -I` passed explicitly (`none` models a command error): when the
cached text is empty it runs the command itself, returning the zero Block
on command failure and otherwise caching `IP:` plus the first
space-separated field; once cached, the cached text is returned without
running the command. The method mutates the receiver, so the updated
receiver is returned alongside the Block. -/
def ipAddressProvider.createBlock (ip : ipAddressProvider)
    (hostnameOutput : Option String) :
    ipAddressProvider × fullSwaybarMessageBodyBlock :=
  if ip.text = "" then
    match hostnameOutput with
    | none => (ip, {})
    | some out =>
      let localIPAddress := (goSplitN2 out ' ').headD ("")
      let ip2 : ipAddressProvider := { text := ("IP:") ++ localIPAddress }
      (ip2, { full_text := ip2.text })
  else
    (ip, { full_text := ip.text })

/-! ## Helper lemmas -/

lemma pair_mem_omitemptyStr (key v : String) (p : String × JsonPrim) :
    p ∈ omitemptyStr key v ↔ (v ≠ "" ∧ p = (key, JsonPrim.s v)) := by
  unfold omitemptyStr
  split <;> simp_all

lemma pair_mem_omitemptyOpt {α : Type} (key : String) (f : α → JsonPrim) (o : Option α)
    (p : String × JsonPrim) :
    p ∈ omitemptyOpt key f o ↔ (∃ a, o = some a ∧ p = (key, f a)) := by
  unfold omitemptyOpt
  cases o <;> simp_all

lemma outputsOf_append (a b : List Effect) :
    outputsOf (a ++ b) = outputsOf a ++ outputsOf b :=
  List.filterMap_append a b _

lemma queriesOf_append (a b : List Effect) :
    queriesOf (a ++ b) = queriesOf a ++ queriesOf b :=
  List.filterMap_append a b _

lemma updateSingleBlock_eq (vals : List fullSwaybarMessageBodyBlock) (i : Nat)
    (p : blockProvider) (h : i < vals.length) :
    updateSingleBlock vals i p =
      some (vals.set i { p.createBlock with name := p.name }, [Effect.queried i]) := by
  simp [updateSingleBlock, h]

lemma updateSingleBlock_outputs (vals : List fullSwaybarMessageBodyBlock) (i : Nat)
    (p : blockProvider) (vals2 : List fullSwaybarMessageBodyBlock) (effs : List Effect)
    (h : updateSingleBlock vals i p = some (vals2, effs)) :
    outputsOf effs = [] ∧ vals2.length = vals.length := by
  by_cases hi : i < vals.length
  · rw [updateSingleBlock_eq vals i p hi] at h
    obtain ⟨rfl, rfl⟩ := by simpa using h
    simp [outputsOf]
  · simp [updateSingleBlock, hi] at h

lemma updateFullBlockValuesAux_outputs (ps : List blockProvider)
    (vals vals2 : List fullSwaybarMessageBodyBlock) (i : Nat) (effs : List Effect)
    (h : updateFullBlockValuesAux vals ps i = some (vals2, effs)) :
    outputsOf effs = [] ∧ vals2.length = vals.length := by
  induction ps generalizing vals i effs with
  | nil =>
    simp [updateFullBlockValuesAux] at h
    obtain ⟨rfl, rfl⟩ := h
    simp [outputsOf]
  | cons p rest ih =>
    rw [updateFullBlockValuesAux] at h
    split at h
    · simp at h
    next v1 e1 heq1 =>
      split at h
      · simp at h
      next v2 e2 heq2 =>
        obtain ⟨rfl, rfl⟩ : v2 = vals2 ∧ e1 ++ e2 = effs := by simpa using h
        obtain ⟨o1, l1⟩ := updateSingleBlock_outputs vals i p v1 e1 heq1
        obtain ⟨o2, l2⟩ := ih v1 (i + 1) e2 heq2
        refine ⟨?_, by omega⟩
        rw [outputsOf_append, o1, o2]
        rfl

/-- The single-slot branch of `displayStatusBar`, fully evaluated. -/
lemma displayStatusBar_pos (vals : List fullSwaybarMessageBodyBlock)
    (ps : List blockProvider) (P : Int) (h0 : 0 ≤ P) (h1 : P.toNat < ps.length)
    (h2 : P.toNat < vals.length) :
    displayStatusBar vals ps P =
      some (vals.set P.toNat { (ps.get ⟨P.toNat, h1⟩).createBlock with
              name := (ps.get ⟨P.toNat, h1⟩).name },
        [Effect.logLine (("Updating block ") ++ toString P), Effect.queried P.toNat,
         Effect.logLine (("Data ") ++ renderBlockArray (vals.set P.toNat
           { (ps.get ⟨P.toNat, h1⟩).createBlock with name := (ps.get ⟨P.toNat, h1⟩).name })),
         Effect.output (renderBlockArray (vals.set P.toNat
           { (ps.get ⟨P.toNat, h1⟩).createBlock with name := (ps.get ⟨P.toNat, h1⟩).name })
           ++ (" ,"))]) := by
  have hneg : ¬P < 0 := by omega
  simp only [displayStatusBar, if_neg hneg, List.getElem?_eq_getElem h1,
    updateSingleBlock_eq vals P.toNat _ h2, List.get_eq_getElem]
  rfl

/-- Every successful `displayStatusBar` call emits exactly one stdout
line: the serialization of the whole updated rendered-state array followed
by a space and a comma. -/
lemma displayStatusBar_outputs (vals : List fullSwaybarMessageBodyBlock)
    (ps : List blockProvider) (idx : Int) (vals2 : List fullSwaybarMessageBodyBlock)
    (effs : List Effect) (h : displayStatusBar vals ps idx = some (vals2, effs)) :
    outputsOf effs = [renderBlockArray vals2 ++ (" ,")] ∧ vals2.length = vals.length := by
  unfold displayStatusBar at h
  by_cases hneg : idx < 0
  · rw [if_pos hneg] at h
    split at h
    · simp at h
    next v1 e1 heq1 =>
      simp only [Option.some.injEq, Prod.mk.injEq] at h
      obtain ⟨rfl, rfl⟩ := h
      obtain ⟨o1, l1⟩ := updateFullBlockValuesAux_outputs ps vals v1 0 e1
        (by simpa [updateFullBlockValues] using heq1)
      refine ⟨?_, l1⟩
      simp [outputsOf] at o1 ⊢
      exact o1
  · rw [if_neg hneg] at h
    split at h
    · simp at h
    next p hp =>
      split at h
      · simp at h
      next v1 e1 heq1 =>
        simp only [Option.some.injEq, Prod.mk.injEq] at h
        obtain ⟨rfl, rfl⟩ := h
        obtain ⟨o1, l1⟩ := updateSingleBlock_outputs vals idx.toNat p v1 e1 heq1
        refine ⟨?_, l1⟩
        simp [outputsOf] at o1 ⊢
        exact o1

/-! ## Claim theorems -/

set_option maxHeartbeats 1000000 in
/-- C7: Block serialization omits every optional field that is unset (the
key is simply absent from the object — the field-list model has no `null`
value at all), while `full_text` is always present even when it is the
empty string; a Block with only `full_text` set (empty) marshals to a JSON
object with exactly one key, rendering to the one-key object text. For
each of the sixteen optional fields, its key occurs in the marshalled
object exactly when the field is set. -/
theorem block_serialization_omitempty :
    (fullSwaybarMessageBodyBlock.marshal {} = [(("full_text"), JsonPrim.s (""))]) ∧
    (renderObj (fullSwaybarMessageBodyBlock.marshal {}) = ("\x7b\"full_text\":\"\"\x7d")) ∧
    (∀ b : fullSwaybarMessageBodyBlock,
      ((("full_text"), JsonPrim.s b.full_text) ∈ b.marshal) ∧
      (b.marshal.map Prod.fst).head? = some ("full_text") ∧
      (("short_text") ∈ b.marshal.map Prod.fst ↔ b.short_text ≠ "") ∧
      (("color") ∈ b.marshal.map Prod.fst ↔ b.color ≠ "") ∧
      (("background") ∈ b.marshal.map Prod.fst ↔ b.background ≠ "") ∧
      (("border") ∈ b.marshal.map Prod.fst ↔ b.border ≠ "") ∧
      (("border_top") ∈ b.marshal.map Prod.fst ↔ b.border_top ≠ none) ∧
      (("border_bottom") ∈ b.marshal.map Prod.fst ↔ b.border_bottom ≠ none) ∧
      (("border_left") ∈ b.marshal.map Prod.fst ↔ b.border_left ≠ none) ∧
      (("border_right") ∈ b.marshal.map Prod.fst ↔ b.border_right ≠ none) ∧
      (("min_width") ∈ b.marshal.map Prod.fst ↔ b.min_width ≠ none) ∧
      (("align") ∈ b.marshal.map Prod.fst ↔ b.align ≠ "") ∧
      (("name") ∈ b.marshal.map Prod.fst ↔ b.name ≠ "") ∧
      (("instance") ∈ b.marshal.map Prod.fst ↔ b.instance_ ≠ "") ∧
      (("urgent") ∈ b.marshal.map Prod.fst ↔ b.urgent ≠ none) ∧
      (("separator") ∈ b.marshal.map Prod.fst ↔ b.separator ≠ none) ∧
      (("separator_block_width") ∈ b.marshal.map Prod.fst ↔
        b.separator_block_width ≠ none) ∧
      (("markup") ∈ b.marshal.map Prod.fst ↔ b.markup ≠ "")) := by
  refine ⟨rfl, rfl, fun b => ?_⟩
  refine ⟨by simp [fullSwaybarMessageBodyBlock.marshal],
    by simp [fullSwaybarMessageBodyBlock.marshal], ?_, ?_, ?_, ?_, ?_, ?_, ?_, ?_, ?_,
    ?_, ?_, ?_, ?_, ?_, ?_, ?_⟩
  all_goals
    simp only [fullSwaybarMessageBodyBlock.marshal, List.map_append, List.mem_append,
      List.mem_map, List.mem_singleton, pair_mem_omitemptyStr, pair_mem_omitemptyOpt]
  · simp
  · simp
  · simp
  · simp
  · cases h : b.border_top <;> simp_all
  · cases h : b.border_bottom <;> simp_all
  · cases h : b.border_left <;> simp_all
  · cases h : b.border_right <;> simp_all
  · cases h : b.min_width <;> simp_all
  · simp
  · simp
  · simp
  · cases h : b.urgent <;> simp_all
  · cases h : b.separator <;> simp_all
  · cases h : b.separator_block_width <;> simp_all
  · simp

/-- C3 counterexample: a rendered-state array containing a block with
empty `full_text` (slot 0) and one with text (slot 1). The emitted line
contains the empty block's object, and the empty block's marshalling is an
element of the serialized array — the claim that an empty-text block does
not appear in the serialized JSON array at all is false on this code. -/
theorem emptyBlock_not_omitted_cex :
    displayStatusBar [{}, { full_text := ("x") }]
        [⟨{}, ("")⟩, ⟨{ full_text := ("x") }, ("")⟩] (-1) =
      some ([{}, { full_text := ("x") }],
        [Effect.logLine ("Updating all blocks"), Effect.queried 0, Effect.queried 1,
         Effect.logLine (("Data ") ++ ("[\x7b\"full_text\":\"\"\x7d,\x7b\"full_text\":\"x\"\x7d]")),
         Effect.output (("[\x7b\"full_text\":\"\"\x7d,\x7b\"full_text\":\"x\"\x7d] ,"))]) ∧
    fullSwaybarMessageBodyBlock.marshal {} ∈
      (([{}, { full_text := ("x") }] :
        List fullSwaybarMessageBodyBlock).map fullSwaybarMessageBodyBlock.marshal) ∧
    fullSwaybarMessageBodyBlock.marshal {} = [(("full_text"), JsonPrim.s (""))] := by
  refine ⟨rfl, by simp, rfl⟩

/-- C3 amended: the program does NOT omit blocks with empty display text.
Every successful `displayStatusBar` call emits the serialization of the
entire updated rendered-state array, one JSON object per slot (including
slots whose `full_text` is empty, which appear as objects carrying the
`full_text` key); omission of textless blocks is behaviour of the
consuming status bar, not of this program. -/
theorem emptyBlock_serialized_present (vals : List fullSwaybarMessageBodyBlock)
    (ps : List blockProvider) (idx : Int) (vals2 : List fullSwaybarMessageBodyBlock)
    (effs : List Effect) (h : displayStatusBar vals ps idx = some (vals2, effs)) :
    outputsOf effs = [renderBlockArray vals2 ++ (" ,")] ∧
    (vals2.map fullSwaybarMessageBodyBlock.marshal).length = vals2.length ∧
    ∀ b ∈ vals2, (("full_text"), JsonPrim.s b.full_text) ∈ b.marshal := by
  refine ⟨(displayStatusBar_outputs vals ps idx vals2 effs h).1, by simp, ?_⟩
  intro b _
  simp [fullSwaybarMessageBodyBlock.marshal]

/-- Witness for `emptyBlock_serialized_present` at a one-slot array whose
block has empty text. -/
theorem emptyBlock_serialized_present_witness :
    displayStatusBar [{}] [⟨{}, ("")⟩] 0 =
      some ([{}],
        [Effect.logLine ("Updating block 0"), Effect.queried 0,
         Effect.logLine (("Data ") ++ ("[\x7b\"full_text\":\"\"\x7d]")),
         Effect.output (("[\x7b\"full_text\":\"\"\x7d] ,"))]) ∧
    (outputsOf
        [Effect.logLine ("Updating block 0"), Effect.queried 0,
         Effect.logLine (("Data ") ++ ("[\x7b\"full_text\":\"\"\x7d]")),
         Effect.output (("[\x7b\"full_text\":\"\"\x7d] ,"))] =
      [renderBlockArray [{}] ++ (" ,")] ∧
    (([{}] : List fullSwaybarMessageBodyBlock).map
        fullSwaybarMessageBodyBlock.marshal).length = ([{}] :
        List fullSwaybarMessageBodyBlock).length ∧
    ∀ b ∈ ([{}] : List fullSwaybarMessageBodyBlock),
      (("full_text"), JsonPrim.s b.full_text) ∈ b.marshal) :=
  ⟨rfl, emptyBlock_serialized_present [{}] [⟨{}, ("")⟩] 0 [{}] _ rfl⟩

/-- C9 counterexample: called before any monitor update (empty cache), the
IP-address provider's `createBlock` does not return the zero Block and
does not merely reflect previously observed state — it performs the data
gathering itself, running `hostname -I` and returning its parsed output. -/
theorem ipAddressProvider_createBlock_gathers_cex :
    ipAddressProvider.createBlock ⟨("")⟩ (some ("192.168.1.5 172.17.0.1 \n")) =
      (⟨("IP:192.168.1.5")⟩, { full_text := ("IP:192.168.1.5") }) ∧
    ({ full_text := ("IP:192.168.1.5") } : fullSwaybarMessageBodyBlock) ≠ {} ∧
    ipAddressProvider.createBlock ⟨("")⟩ none ≠
      ipAddressProvider.createBlock ⟨("")⟩ (some ("192.168.1.5 172.17.0.1 \n")) := by
  refine ⟨rfl, by decide, by decide⟩

/-- C9 amended: the IP-address provider's `createBlock` is lazy, not
passive. With a non-empty cache it returns the cached text without running
the command; with an empty cache it runs `hostname -I` itself, returning
the zero Block only when the command fails, and otherwise caching and
returning `IP:` followed by the first space-separated field of the
command's output. -/
theorem ipAddressProvider_createBlock_lazy :
    (∀ (ip : ipAddressProvider) (out : Option String), ip.text ≠ "" →
      ipAddressProvider.createBlock ip out = (ip, { full_text := ip.text })) ∧
    (ipAddressProvider.createBlock ⟨("")⟩ none = (⟨("")⟩, {})) ∧
    (∀ out : String,
      ipAddressProvider.createBlock ⟨("")⟩ (some out) =
        (⟨("IP:") ++ (goSplitN2 out ' ').headD ("")⟩,
         { full_text := ("IP:") ++ (goSplitN2 out ' ').headD ("") })) := by
  refine ⟨?_, rfl, fun out => rfl⟩
  intro ip out h
  simp [ipAddressProvider.createBlock, h]

/-- Witness for `ipAddressProvider_createBlock_lazy` at a cached state. -/
theorem ipAddressProvider_createBlock_lazy_witness :
    (("IP:x") : String) ≠ "" ∧
    ipAddressProvider.createBlock ⟨("IP:x")⟩ none =
      (⟨("IP:x")⟩, { full_text := ("IP:x") }) :=
  ⟨by decide, ipAddressProvider_createBlock_lazy.1 ⟨("IP:x")⟩ none (by decide)⟩

/-- C10: `decodeClickEvent` reads the first byte of its input without a
length guard, so the empty string makes it panic with an out-of-range
index; and since the stdin reader forwards every line whose trim is
neither `[` nor `]` to `decodeClickEvent`, a line trimming to the empty
string crashes the reader instead of being skipped. -/
theorem decodeClickEvent_empty_panics :
    (decodeClickEvent ("") = Except.error GoPanic.indexOutOfRange) ∧
    (∀ (line : String) (rest : List String), trimGo line = "" →
      stdinReaderRun (line :: rest) = ([], ReaderOutcome.panicked GoPanic.indexOutOfRange)) := by
  refine ⟨rfl, ?_⟩
  intro line rest h
  simp [stdinReaderRun, h, decodeClickEvent]

/-- Witness for `decodeClickEvent_empty_panics` on a line of one space. -/
theorem decodeClickEvent_empty_panics_witness :
    trimGo (" ") = "" ∧
    stdinReaderRun [(" ")] = ([], ReaderOutcome.panicked GoPanic.indexOutOfRange) :=
  ⟨rfl, decodeClickEvent_empty_panics.2 (" ") [] rfl⟩

/-- C4, the code evaluated at the failing input: with the spec's own
registration table (an unnamed provider at position 0, `volume` at
position 1), the name-to-position table indeed omits the empty name — but
the click branch looks the event's name up without the comma-ok form, so a
click event with empty name yields Go's zero value 0 and the provider at
position 0 HAS its `respondToClick` invoked, contradicting the claim that
such an event is never delivered to any handler. The same holds for any
unknown name. No panic occurs (position 0 exists). -/
theorem unnamed_click_routed_to_position_zero :
    makeProvidersByName [⟨{}, ("")⟩, ⟨{ full_text := ("v") }, ("volume")⟩] =
      [(("volume"), 1)] ∧
    goMapLookup [(("volume"), 1)] ("") = 0 ∧
    mainLoopStep [(("volume"), 1)] [⟨{}, ("")⟩, ⟨{ full_text := ("v") }, ("volume")⟩]
        ⟨[{}, {}], true⟩ (.click { name := (""), button := 1 }) =
      .cont ⟨[{}, {}], true⟩ [Effect.clickInvoked 0] ∧
    mainLoopStep [(("volume"), 1)] [⟨{}, ("")⟩, ⟨{ full_text := ("v") }, ("volume")⟩]
        ⟨[{}, {}], true⟩ (.click { name := ("bogus"), button := 1 }) =
      .cont ⟨[{}, {}], true⟩ [Effect.clickInvoked 0] ∧
    mainLoopStep [(("volume"), 1)] [⟨{}, ("")⟩, ⟨{ full_text := ("v") }, ("volume")⟩]
        ⟨[{}, {}], true⟩ (.click { name := ("volume"), button := 1 }) =
      .cont ⟨[{}, {}], true⟩ [Effect.clickInvoked 1] := by
  exact ⟨rfl, rfl, rfl, rfl, rfl⟩

/-- C1: a change notification naming a valid position P re-queries only
the provider at P (the query trace is exactly `[P]`), overwrites slot P of
the rendered-state array leaving every other slot unchanged, and emits
exactly one stdout line: the serialization of the entire updated array
terminated with a trailing comma. -/
theorem changed_event_single_requery (pbn : List (String × Nat))
    (ps : List blockProvider) (st : LoopState) (P : Int)
    (h0 : 0 ≤ P) (h1 : P.toNat < ps.length) (h2 : P.toNat < st.fullBlockValues.length) :
    ∃ p vals2 effs,
      ps[P.toNat]? = some p ∧
      vals2 = st.fullBlockValues.set P.toNat { p.createBlock with name := p.name } ∧
      mainLoopStep pbn ps st (.changed P) = .cont { st with fullBlockValues := vals2 } effs ∧
      queriesOf effs = [P.toNat] ∧
      outputsOf effs = [renderBlockArray vals2 ++ (" ,")] ∧
      (∀ i : Nat, i ≠ P.toNat → vals2[i]? = st.fullBlockValues[i]?) ∧
      vals2.length = st.fullBlockValues.length := by
  have hd := displayStatusBar_pos st.fullBlockValues ps P h0 h1 h2
  refine ⟨ps.get ⟨P.toNat, h1⟩,
    st.fullBlockValues.set P.toNat
      { (ps.get ⟨P.toNat, h1⟩).createBlock with name := (ps.get ⟨P.toNat, h1⟩).name },
    [Effect.logLine (("Updating block ") ++ toString P), Effect.queried P.toNat,
     Effect.logLine (("Data ") ++ renderBlockArray (st.fullBlockValues.set P.toNat
       { (ps.get ⟨P.toNat, h1⟩).createBlock with name := (ps.get ⟨P.toNat, h1⟩).name })),
     Effect.output (renderBlockArray (st.fullBlockValues.set P.toNat
       { (ps.get ⟨P.toNat, h1⟩).createBlock with
         name := (ps.get ⟨P.toNat, h1⟩).name }) ++ (" ,"))],
    ?_, rfl, ?_, ?_, ?_, ?_, ?_⟩
  · simp [List.getElem?_eq_getElem h1]
  · simp only [mainLoopStep, hd]
  · simp [queriesOf]
  · simp [outputsOf]
  · intro i hi
    exact List.getElem?_set_ne (by omega)
  · simp

/-- Witness for `changed_event_single_requery` with one provider. -/
theorem changed_event_single_requery_witness :
    ((0 : Int) ≤ 0 ∧ (0 : Int).toNat < ([⟨{ full_text := ("a") }, ("n")⟩] :
        List blockProvider).length ∧
      (0 : Int).toNat < (LoopState.mk [{}] true).fullBlockValues.length) ∧
    (∃ p vals2 effs,
      (([⟨{ full_text := ("a") }, ("n")⟩] : List blockProvider))[(0 : Int).toNat]? = some p ∧
      vals2 = (LoopState.mk [{}] true).fullBlockValues.set (0 : Int).toNat
        { p.createBlock with name := p.name } ∧
      mainLoopStep [] [⟨{ full_text := ("a") }, ("n")⟩] (LoopState.mk [{}] true)
        (.changed 0) = .cont { LoopState.mk [{}] true with fullBlockValues := vals2 } effs ∧
      queriesOf effs = [(0 : Int).toNat] ∧
      outputsOf effs = [renderBlockArray vals2 ++ (" ,")] ∧
      (∀ i : Nat, i ≠ (0 : Int).toNat →
        vals2[i]? = (LoopState.mk [{}] true).fullBlockValues[i]?) ∧
      vals2.length = (LoopState.mk [{}] true).fullBlockValues.length) :=
  ⟨⟨by decide, by decide, by decide⟩,
    changed_event_single_requery [] [⟨{ full_text := ("a") }, ("n")⟩]
      (LoopState.mk [{}] true) 0 (by decide) (by decide) (by decide)⟩

/-- C2: over any trace of N delivered change notifications naming valid
positions (repeats allowed, provider snapshots arbitrary at each
delivery), the loop emits exactly N stdout lines, each the serialization
of the full rendered-state array (all slots, length preserved) followed by
the trailing comma, and the loop is still running afterwards: no
notification is coalesced or dropped. -/
theorem mainLoop_one_line_per_notification (pbn : List (String × Nat))
    (st : LoopState) (trace : List (List blockProvider × LoopEvent))
    (hvalid : ∀ pe ∈ trace, ∃ ps i, pe = (ps, LoopEvent.changed i) ∧ 0 ≤ i ∧
      i.toNat < ps.length ∧ i.toNat < st.fullBlockValues.length) :
    (outputsOf (mainLoopRun pbn st trace).1).length = trace.length ∧
    (∀ line ∈ outputsOf (mainLoopRun pbn st trace).1,
      ∃ vals : List fullSwaybarMessageBodyBlock,
        vals.length = st.fullBlockValues.length ∧
        line = renderBlockArray vals ++ (" ,")) ∧
    (∃ st2, (mainLoopRun pbn st trace).2 = RunResult.running st2 ∧
      st2.fullBlockValues.length = st.fullBlockValues.length) := by
  induction trace generalizing st with
  | nil =>
    exact ⟨rfl, by simp [mainLoopRun, outputsOf], ⟨st, rfl, rfl⟩⟩
  | cons pe rest ih =>
    obtain ⟨ps, i, hpe, h0, h1, h2⟩ := hvalid pe (List.mem_cons_self pe rest)
    subst hpe
    have hd := displayStatusBar_pos st.fullBlockValues ps i h0 h1 h2
    set b2 := ({ (ps.get ⟨i.toNat, h1⟩).createBlock with
      name := (ps.get ⟨i.toNat, h1⟩).name } : fullSwaybarMessageBodyBlock) with hb2
    set vals2 := st.fullBlockValues.set i.toNat b2 with hv2
    have hlen2 : vals2.length = st.fullBlockValues.length := by simp [hv2]
    have hstep : mainLoopStep pbn ps st (.changed i) =
        .cont { st with fullBlockValues := vals2 }
          [Effect.logLine (("Updating block ") ++ toString i), Effect.queried i.toNat,
           Effect.logLine (("Data ") ++ renderBlockArray vals2),
           Effect.output (renderBlockArray vals2 ++ (" ,"))] := by
      simp only [mainLoopStep, hd]
    obtain ⟨ihl, ihm, st3, ihr, ihlen⟩ := ih { st with fullBlockValues := vals2 }
      (by
        intro pe hpe
        obtain ⟨ps2, j, hpe2, g0, g1, g2⟩ := hvalid pe (List.mem_cons_of_mem _ hpe)
        exact ⟨ps2, j, hpe2, g0, g1, by simpa [hlen2] using g2⟩)
    simp only [mainLoopRun, hstep]
    refine ⟨?_, ?_, ⟨st3, by simpa using ihr, by simpa [hlen2] using ihlen⟩⟩
    · simp only [outputsOf_append]
      simp only [outputsOf, List.filterMap_cons] at *
      simp [ihl]
    · intro line hline
      simp only [outputsOf_append] at hline
      rw [List.mem_append] at hline
      rcases hline with hline | hline
      · refine ⟨vals2, hlen2, ?_⟩
        simpa [outputsOf] using hline
      · obtain ⟨vals, hc1, hc2⟩ := ihm line hline
        exact ⟨vals, by simpa [hlen2] using hc1, hc2⟩

/-- Witness for `mainLoop_one_line_per_notification` on a two-event trace
naming the same position twice. -/
theorem mainLoop_one_line_per_notification_witness :
    (∀ pe ∈ ([([⟨{ full_text := ("a") }, ("")⟩], LoopEvent.changed 0),
        ([⟨{ full_text := ("a") }, ("")⟩], LoopEvent.changed 0)] :
        List (List blockProvider × LoopEvent)),
      ∃ ps i, pe = (ps, LoopEvent.changed i) ∧ 0 ≤ i ∧
        i.toNat < ps.length ∧ i.toNat < (LoopState.mk [{}] true).fullBlockValues.length) ∧
    ((outputsOf (mainLoopRun [] (LoopState.mk [{}] true)
        [([⟨{ full_text := ("a") }, ("")⟩], LoopEvent.changed 0),
         ([⟨{ full_text := ("a") }, ("")⟩], LoopEvent.changed 0)]).1).length =
      ([([⟨{ full_text := ("a") }, ("")⟩], LoopEvent.changed 0),
        ([⟨{ full_text := ("a") }, ("")⟩], LoopEvent.changed 0)] :
        List (List blockProvider × LoopEvent)).length ∧
    (∀ line ∈ outputsOf (mainLoopRun [] (LoopState.mk [{}] true)
        [([⟨{ full_text := ("a") }, ("")⟩], LoopEvent.changed 0),
         ([⟨{ full_text := ("a") }, ("")⟩], LoopEvent.changed 0)]).1,
      ∃ vals : List fullSwaybarMessageBodyBlock,
        vals.length = (LoopState.mk [{}] true).fullBlockValues.length ∧
        line = renderBlockArray vals ++ (" ,")) ∧
    (∃ st2, (mainLoopRun [] (LoopState.mk [{}] true)
        [([⟨{ full_text := ("a") }, ("")⟩], LoopEvent.changed 0),
         ([⟨{ full_text := ("a") }, ("")⟩], LoopEvent.changed 0)]).2 =
        RunResult.running st2 ∧
      st2.fullBlockValues.length = (LoopState.mk [{}] true).fullBlockValues.length)) := by
  have hv : ∀ pe ∈ ([([⟨{ full_text := ("a") }, ("")⟩], LoopEvent.changed 0),
      ([⟨{ full_text := ("a") }, ("")⟩], LoopEvent.changed 0)] :
      List (List blockProvider × LoopEvent)),
      ∃ ps i, pe = (ps, LoopEvent.changed i) ∧ 0 ≤ i ∧
        i.toNat < ps.length ∧ i.toNat < (LoopState.mk [{}] true).fullBlockValues.length := by
    intro pe hpe
    rcases List.mem_cons.mp hpe with h | h
    · exact ⟨[⟨{ full_text := ("a") }, ("")⟩], 0, by simp [h], by decide, by decide, by decide⟩
    · simp only [List.mem_singleton] at h
      exact ⟨[⟨{ full_text := ("a") }, ("")⟩], 0, by simp [h], by decide, by decide, by decide⟩
  exact ⟨hv, mainLoop_one_line_per_notification [] (LoopState.mk [{}] true) _ hv⟩

/-- C8: two consecutive change notifications naming the same position,
with the provider snapshot unchanged in between, produce two stdout lines
that are identical (in particular the Block at that position is identical
in both), and neither line is suppressed: the loop deduplicates nothing. -/
theorem renotification_no_dedup (pbn : List (String × Nat)) (ps : List blockProvider)
    (st : LoopState) (P : Int) (h0 : 0 ≤ P) (h1 : P.toNat < ps.length)
    (h2 : P.toNat < st.fullBlockValues.length) :
    ∃ p vals2 line,
      ps[P.toNat]? = some p ∧
      vals2 = st.fullBlockValues.set P.toNat { p.createBlock with name := p.name } ∧
      line = renderBlockArray vals2 ++ (" ,") ∧
      outputsOf (mainLoopRun pbn st [(ps, .changed P), (ps, .changed P)]).1 = [line, line] ∧
      vals2[P.toNat]? = some { p.createBlock with name := p.name } := by
  have hd1 := displayStatusBar_pos st.fullBlockValues ps P h0 h1 h2
  have h2b : P.toNat < (st.fullBlockValues.set P.toNat
      { (ps.get ⟨P.toNat, h1⟩).createBlock with
        name := (ps.get ⟨P.toNat, h1⟩).name }).length := by simpa using h2
  have hd2 := displayStatusBar_pos (st.fullBlockValues.set P.toNat
      { (ps.get ⟨P.toNat, h1⟩).createBlock with
        name := (ps.get ⟨P.toNat, h1⟩).name }) ps P h0 h1 h2b
  rw [List.set_set] at hd2
  refine ⟨ps.get ⟨P.toNat, h1⟩, _, _, by simp [List.getElem?_eq_getElem h1], rfl, rfl,
    ?_, ?_⟩
  · rw [mainLoopRun]
    simp only [mainLoopStep, hd1]
    rw [mainLoopRun]
    simp only [mainLoopStep, hd2]
    rw [mainLoopRun]
    simp [outputsOf]
  · exact List.getElem?_set_self h2

/-- Witness for `renotification_no_dedup` with one provider. -/
theorem renotification_no_dedup_witness :
    ((0 : Int) ≤ 0 ∧ (0 : Int).toNat < ([⟨{ full_text := ("a") }, ("")⟩] :
        List blockProvider).length ∧
      (0 : Int).toNat < (LoopState.mk [{}] true).fullBlockValues.length) ∧
    (∃ p vals2 line,
      (([⟨{ full_text := ("a") }, ("")⟩] : List blockProvider))[(0 : Int).toNat]? = some p ∧
      vals2 = (LoopState.mk [{}] true).fullBlockValues.set (0 : Int).toNat
        { p.createBlock with name := p.name } ∧
      line = renderBlockArray vals2 ++ (" ,") ∧
      outputsOf (mainLoopRun [] (LoopState.mk [{}] true)
        [([⟨{ full_text := ("a") }, ("")⟩], .changed 0),
         ([⟨{ full_text := ("a") }, ("")⟩], .changed 0)]).1 = [line, line] ∧
      vals2[(0 : Int).toNat]? = some { p.createBlock with name := p.name }) :=
  ⟨⟨by decide, by decide, by decide⟩,
    renotification_no_dedup [] [⟨{ full_text := ("a") }, ("")⟩]
      (LoopState.mk [{}] true) 0 (by decide) (by decide) (by decide)⟩

/-- C6: a delivered SIGCONT only writes a log line — the loop state
(rendered-state array included) is returned unchanged and the loop
continues; a delivered SIGSTOP makes the loop return at once: whatever
events follow in the trace are never processed, the whole run's effects
are the single SIGSTOP log line, and in particular no further stdout line
and no closing bracket is ever emitted. -/
theorem signal_handling :
    (∀ (pbn : List (String × Nat)) (ps : List blockProvider) (st : LoopState),
      mainLoopStep pbn ps st (.sig .SIGCONT) = .cont st [Effect.logLine ("SIGCONT")]) ∧
    (∀ (pbn : List (String × Nat)) (st : LoopState) (ps : List blockProvider)
      (rest : List (List blockProvider × LoopEvent)),
      mainLoopRun pbn st ((ps, .sig .SIGSTOP) :: rest) =
        ([Effect.logLine ("SIGSTOP")], RunResult.returned) ∧
      outputsOf (mainLoopRun pbn st ((ps, .sig .SIGSTOP) :: rest)).1 = []) :=
  ⟨fun _ _ _ => rfl, fun _ _ _ _ => ⟨rfl, rfl⟩⟩

/-- C5: fed the three lines `[`, one click-event object line, `]`, the
stdin reader forwards exactly one decoded Click event and then closes its
channel; a leading comma on an event line is stripped before decoding (for
every string, decoding the comma-prefixed line equals unmarshalling the
line itself); and after closure the loop swaps the stdin branch for the
permanently blocking channel and keeps servicing the signal and
change-notification sources: SIGCONT and a change notification are handled
exactly as before, without panicking. -/
theorem stdinReader_termination :
    (stdinReaderRun [("["),
        ("\x7b\"name\":\"x\",\"button\":1,\"x\":0,\"y\":0,\"event\":0,\"relative_x\":0,\"relative_y\":0,\"width\":0,\"height\":0\x7d"),
        ("]")] =
      ([{ name := ("x"), button := 1 }], ReaderOutcome.closed)) ∧
    (∀ s : String, decodeClickEvent ((",") ++ s) =
      (jsonUnmarshalClickEvent s).elim (Except.error GoPanic.jsonError) Except.ok) ∧
    (∀ (pbn : List (String × Nat)) (ps : List blockProvider)
      (vals : List fullSwaybarMessageBodyBlock),
      mainLoopStep pbn ps (LoopState.mk vals true) .stdinClosed =
        .cont (LoopState.mk vals false) []) ∧
    (∀ (pbn : List (String × Nat)) (ps : List blockProvider)
      (vals : List fullSwaybarMessageBodyBlock),
      mainLoopStep pbn ps (LoopState.mk vals false) (.sig .SIGCONT) =
        .cont (LoopState.mk vals false) [Effect.logLine ("SIGCONT")]) ∧
    (∀ pbn : List (String × Nat),
      mainLoopStep pbn [⟨{ full_text := ("t") }, ("")⟩] (LoopState.mk [{}] false)
          (.changed 0) =
        .cont (LoopState.mk [{ full_text := ("t") }] false)
          [Effect.logLine ("Updating block 0"), Effect.queried 0,
           Effect.logLine (("Data ") ++ ("[\x7b\"full_text\":\"t\"\x7d]")),
           Effect.output (("[\x7b\"full_text\":\"t\"\x7d] ,"))]) := by
  refine ⟨rfl, ?_, fun _ _ _ => rfl, fun _ _ _ => rfl, fun _ => rfl⟩
  intro s
  have hdata : (((",") : String) ++ s).data = ',' :: s.data := rfl
  have hmk : String.mk s.data = s := rfl
  cases h : jsonUnmarshalClickEvent s <;>
    simp [decodeClickEvent, hdata, hmk, h]

end StatusBar

